import Mathlib

/-!
Verification of the console chess game (`src/chess.js`).

The program keeps a global 8x8 board of one-character string tags
(`"."` for an empty cell, uppercase letters for white pieces, lowercase
for black) together with a `currentPlayer` flag (`"white"` or
`"black"`).  We embed the board as a `List (List String)` (row-major,
matching the JS nested arrays) and each operation of the program as a
Lean function translated line by line from the source:

* `initialBoard` / `initialGameState` — the module-level initializers;
* `parseMove` — the notation parser (regex `[a-h][1-8][a-h][1-8]`);
* `isValidMove` — the ownership/occupancy validator;
* `applyMove` — the board mutation and player flip of `makeMove`;
* `makeMove` — the dispatcher composing parser, validator, applicator,
  returning the new state and the message printed;
* `saveGame` / `loadGame` — persistence.  `JSON.stringify`/`JSON.parse`
  are platform collaborators, so the file is modelled as the JSON value
  it holds (`Json`), with `FileContent.absent` and
  `FileContent.malformed` covering a missing file and content on which
  `JSON.parse` throws — exactly the cases caught by `loadGame`'s
  `try/catch`.
-/

/-! ### Data model and operations, from `src/chess.js` -/

/-- A board cell: a JS string, `"."` or a one-letter piece tag. -/
abbrev Cell := String

/-- The 8x8 grid, row-major, row 0 = rank 8, as in the JS nested array. -/
abbrev Board := List (List Cell)

/-- The global game state: `board` and `currentPlayer` (lines 11–21). -/
structure GameState where
  board : Board
  currentPlayer : String
  deriving Repr, DecidableEq

/-- The initial board literal (lines 11–20 of `chess.js`). -/
def initialBoard : Board :=
  [ ["r", "n", "b", "q", "k", "b", "n", "r"],
    ["p", "p", "p", "p", "p", "p", "p", "p"],
    [".", ".", ".", ".", ".", ".", ".", "."],
    [".", ".", ".", ".", ".", ".", ".", "."],
    [".", ".", ".", ".", ".", ".", ".", "."],
    [".", ".", ".", ".", ".", ".", ".", "."],
    ["P", "P", "P", "P", "P", "P", "P", "P"],
    ["R", "N", "B", "Q", "K", "B", "N", "R"] ]

/-- State at process start: initial board, `currentPlayer = "white"`. -/
def initialGameState : GameState :=
  { board := initialBoard, currentPlayer := "white" }

/-- Read `board[r][c]`.  In-range accesses return the stored cell; the
default `"."` is never reached on parser-produced coordinates. -/
def getCell (b : Board) (r c : Nat) : Cell :=
  (b.getD r []).getD c "."

/-- Write `board[r][c] = v` (no-op out of range, like `List.set`). -/
def setCell (b : Board) (r c : Nat) (v : Cell) : Board :=
  b.set r ((b.getD r []).set c v)

/-- JS `String.prototype.toUpperCase` on the ASCII tags the program
stores: uppercase each character. -/
def toUpperCase (s : String) : String := String.mk (s.data.map Char.toUpper)

/-- JS `String.prototype.toLowerCase` on the ASCII tags the program
stores: lowercase each character. -/
def toLowerCase (s : String) : String := String.mk (s.data.map Char.toLower)

/-- `parseMove` (lines 57–66): test the move string against
`^[a-h][1-8][a-h][1-8]$`; on success return `(fromRow, fromCol)` and
`(toRow, toCol)` with `row = 8 - rank`, `col = file - 'a'`; otherwise
throw the invalid-format error. -/
def parseMove (move : String) : Except String ((Nat × Nat) × (Nat × Nat)) :=
  match move.toList with
  | [c0, c1, c2, c3] =>
    if ('a' ≤ c0 && c0 ≤ 'h') && ('1' ≤ c1 && c1 ≤ '8')
        && ('a' ≤ c2 && c2 ≤ 'h') && ('1' ≤ c3 && c3 ≤ '8') then
      Except.ok
        ((8 - (c1.toNat - '0'.toNat), c0.toNat - 'a'.toNat),
         (8 - (c3.toNat - '0'.toNat), c2.toNat - 'a'.toNat))
    else
      Except.error "Invalid move format. Use algebraic notation (e.g., e2e4)."
  | _ => Except.error "Invalid move format. Use algebraic notation (e.g., e2e4)."

/-- `isValidMove` (lines 69–87): reject an empty source, reject a piece
not owned by `currentPlayer`, accept an empty destination, otherwise
accept exactly when the destination piece's color differs. -/
def isValidMove (st : GameState) (f t : Nat × Nat) : Bool :=
  let piece := getCell st.board f.1 f.2
  if piece == "." then false
  else
    let isWhitePiece := toUpperCase piece == piece
    if (st.currentPlayer == "white" && !isWhitePiece)
        || (st.currentPlayer == "black" && isWhitePiece) then false
    else
      let destPiece := getCell st.board t.1 t.2
      if destPiece == "." then true
      else
        let isDestWhite := toUpperCase destPiece == destPiece
        isWhitePiece != isDestWhite

/-- The mutation performed by a successful `makeMove` (lines 96–100):
copy the source cell to the destination, clear the source, flip
`currentPlayer`. -/
def applyMove (st : GameState) (f t : Nat × Nat) : GameState :=
  let b1 := setCell st.board t.1 t.2 (getCell st.board f.1 f.2)
  let b2 := setCell b1 f.1 f.2 "."
  { board := b2,
    currentPlayer := if st.currentPlayer == "white" then "black" else "white" }

/-- `makeMove` (lines 89–106): parse, validate, apply.  Returns the
resulting state and the message printed (the parser's error message,
`"Invalid move!"`, or `"Move successful!"`). -/
def makeMove (st : GameState) (input : String) : GameState × String :=
  match parseMove input with
  | Except.error msg => (st, msg)
  | Except.ok (f, t) =>
    if isValidMove st f t then (applyMove st f t, "Move successful!")
    else (st, "Invalid move!")

/-- JSON values, the shape `JSON.stringify`/`JSON.parse` exchange with
the persistence file. -/
inductive Json where
  | str (s : String)
  | arr (xs : List Json)
  | obj (fields : List (String × Json))
  deriving Repr

/-- What the persistence file holds when `loadGame` runs: absent,
unreadable/unparsable (the `catch` cases), or a parsed JSON value. -/
inductive FileContent where
  | absent
  | malformed
  | content (j : Json)
  deriving Repr

/-- Serialization of the board inside `JSON.stringify({ board, ... })`:
the nested array becomes a JSON array of arrays of strings. -/
def encodeBoard (b : Board) : Json :=
  Json.arr (b.map fun row => Json.arr (row.map Json.str))

/-- `saveGame`'s snapshot `{ board, currentPlayer }` (lines 23–27). -/
def encodeState (st : GameState) : Json :=
  Json.obj [("board", encodeBoard st.board),
            ("currentPlayer", Json.str st.currentPlayer)]

/-- `saveGame` (lines 23–27): write the snapshot, report success. -/
def saveGame (st : GameState) : FileContent × String :=
  (FileContent.content (encodeState st), "Game saved successfully!")

/-- JS property access `state.k` on a parsed JSON object. -/
def Json.getField (j : Json) (k : String) : Option Json :=
  match j with
  | Json.obj fields => (fields.find? (fun p => p.1 == k)).map (fun p => p.2)
  | _ => none

/-- Read one board row back from JSON (a JSON array of strings). -/
def decodeRow (j : Json) : Option (List Cell) :=
  match j with
  | Json.arr xs => xs.mapM (fun x => match x with
      | Json.str s => some s
      | _ => none)
  | _ => none

/-- Read the board grid back from JSON. -/
def decodeBoard (j : Json) : Option Board :=
  match j with
  | Json.arr rows => rows.mapM decodeRow
  | _ => none

/-- Extract `state.board` and `state.currentPlayer` as the snapshot
shape `saveGame` writes.  `none` means the JSON parsed but does not
have the save-file shape, a case outside this model's state space (the
JS assigns the raw values to the globals unchecked). -/
def decodeState (j : Json) : Option GameState :=
  match j.getField "board" with
  | none => none
  | some jb =>
    match decodeBoard jb with
    | none => none
    | some b =>
      match j.getField "currentPlayer" with
      | some (Json.str p) => some { board := b, currentPlayer := p }
      | _ => none

/-- `loadGame` (lines 29–39): on a read or parse failure the `catch`
leaves the current state `st` untouched and reports that no saved game
was found; on success the globals are overwritten with the snapshot. -/
def loadGame (file : FileContent) (st : GameState) : Option (GameState × String) :=
  match file with
  | FileContent.absent => some (st, "No saved game found. Starting new game.")
  | FileContent.malformed => some (st, "No saved game found. Starting new game.")
  | FileContent.content j =>
    (decodeState j).map (fun st2 => (st2, "Game loaded successfully!"))

/-- Whiteness test `piece.toUpperCase() === piece` as used by the
validator; the color a cell tag encodes by its case. -/
def isWhiteTag (p : Cell) : Bool := toUpperCase p == p

/-- The color of a piece tag, by case, as a player string. -/
def tagColor (p : Cell) : String := if isWhiteTag p then "white" else "black"

/-- The valid piece tags together with the empty marker `"."`. -/
def validCell (c : Cell) : Bool :=
  c ∈ [".", "p", "n", "b", "r", "q", "k", "P", "N", "B", "R", "Q", "K"]

/-- The board invariant: exactly 8 rows of exactly 8 cells, every cell
a valid piece tag or the empty marker. -/
def boardWF (b : Board) : Prop :=
  b.length = 8 ∧ ∀ row ∈ b, row.length = 8 ∧ ∀ c ∈ row, validCell c = true

instance boardWF.instDecidable (b : Board) : Decidable (boardWF b) := by
  unfold boardWF
  infer_instance

/-! ### Spec-side definitions

These follow the specification's words (section 4.2 and section 8) and
are compared against the source-derived functions above. -/

/-- Spec side: a move string is well-formed when it is exactly 4
characters, file letter a–h, rank digit 1–8, file letter a–h, rank
digit 1–8. -/
def specNotation (s : String) : Bool :=
  match s.toList with
  | [c0, c1, c2, c3] =>
    ('a' ≤ c0 && c0 ≤ 'h') && ('1' ≤ c1 && c1 ≤ '8')
      && ('a' ≤ c2 && c2 ≤ 'h') && ('1' ≤ c3 && c3 ≤ '8')
  | _ => false

/-- The numeric rank a rank digit denotes. -/
def rankVal (c : Char) : Nat := c.toNat - '0'.toNat

/-- The column a file letter denotes (spec: file 'a' maps to column 0). -/
def fileVal (c : Char) : Nat := c.toNat - 'a'.toNat

/-- Spec side: the white back rank ordered rook, knight, bishop, queen,
king, bishop, knight, rook, as uppercase (= white) tags. -/
def whiteBackRank : List Cell := ["R", "N", "B", "Q", "K", "B", "N", "R"]

/-! ### Helper lemmas about cell access and update -/

lemma getD_set_self {α : Type} (l : List α) (n : Nat) (v d : α)
    (h : n < l.length) : (l.set n v).getD n d = v := by
  induction l generalizing n with
  | nil => simp at h
  | cons a t ih =>
    cases n with
    | zero => rfl
    | succ m => exact ih m (by simpa using h)

lemma getD_set_ne {α : Type} (l : List α) (n m : Nat) (v d : α)
    (h : n ≠ m) : (l.set n v).getD m d = l.getD m d := by
  induction l generalizing n m with
  | nil => rfl
  | cons a t ih =>
    cases n with
    | zero =>
      cases m with
      | zero => exact absurd rfl h
      | succ k => rfl
    | succ n2 =>
      cases m with
      | zero => rfl
      | succ k =>
        simp only [List.set, List.getD, List.getElem?_cons_succ]
        exact ih n2 k (fun hc => h (by rw [hc]))

lemma setCell_length (b : Board) (r c : Nat) (v : Cell) :
    (setCell b r c v).length = b.length := List.length_set b r _

lemma getD_setCell_row (b : Board) (r c : Nat) (v : Cell) (r2 : Nat) :
    ((setCell b r c v).getD r2 []).length = (b.getD r2 []).length := by
  unfold setCell
  rcases eq_or_ne r r2 with h | h
  · subst h
    by_cases hr : r < b.length
    · rw [getD_set_self b r _ [] hr, List.length_set]
    · rw [List.set_eq_of_length_le (Nat.le_of_not_lt hr)]
  · rw [getD_set_ne b r r2 _ [] h]

lemma getCell_setCell_self (b : Board) (r c : Nat) (v : Cell)
    (hr : r < b.length) (hc : c < (b.getD r []).length) :
    getCell (setCell b r c v) r c = v := by
  unfold getCell setCell
  rw [getD_set_self b r _ [] hr, getD_set_self _ c v "." (by simpa using hc)]

lemma getCell_setCell_ne (b : Board) (r c : Nat) (v : Cell) (r2 c2 : Nat)
    (h : r ≠ r2 ∨ c ≠ c2) :
    getCell (setCell b r c v) r2 c2 = getCell b r2 c2 := by
  unfold getCell setCell
  rcases eq_or_ne r r2 with hr | hr
  · subst hr
    rcases h with h | h
    · exact absurd rfl h
    · by_cases hlt : r < b.length
      · rw [getD_set_self b r _ [] hlt, getD_set_ne _ c c2 v "." h]
      · rw [List.set_eq_of_length_le (Nat.le_of_not_lt hlt)]
  · rw [getD_set_ne b r r2 _ [] hr]

lemma pair_ne_iff {a b c d : Nat} : (a, b) ≠ (c, d) ↔ a ≠ c ∨ b ≠ d := by
  constructor
  · intro h
    by_contra hc
    push_neg at hc
    exact h (by rw [hc.1, hc.2])
  · rintro (h | h) he
    · exact h (congrArg Prod.fst he)
    · exact h (congrArg Prod.snd he)

/-! ### Helper lemmas about the validator -/

/-- A move whose source and destination coincide is always rejected:
either the cell is empty, or the destination holds the mover's own
piece. -/
lemma isValidMove_self (st : GameState) (c : Nat × Nat) :
    isValidMove st c c = false := by
  unfold isValidMove
  by_cases h1 : getCell st.board c.1 c.2 == "."
  · simp [h1]
  · simp [h1]

/-- A validator-approved move never has source = destination. -/
lemma ne_of_isValidMove {st : GameState} {f t : Nat × Nat}
    (h : isValidMove st f t = true) : f ≠ t := by
  intro he
  rw [he, isValidMove_self] at h
  exact Bool.false_ne_true h

/-! ### Helper lemmas about persistence -/

lemma decodeRow_encode (row : List Cell) :
    decodeRow (Json.arr (row.map Json.str)) = some row := by
  show (row.map Json.str).mapM _ = some row
  induction row with
  | nil => rfl
  | cons a t ih =>
    rw [List.map_cons, List.mapM_cons]
    simp only [List.mapM] at ih
    simp [ih]

lemma decodeBoard_encode (b : Board) :
    decodeBoard (encodeBoard b) = some b := by
  show (b.map _).mapM decodeRow = some b
  induction b with
  | nil => rfl
  | cons row rest ih =>
    rw [List.map_cons, List.mapM_cons, decodeRow_encode row]
    simp only [List.mapM] at ih
    simp [ih]

lemma decodeState_encode (st : GameState) :
    decodeState (encodeState st) = some st := by
  have h1 : (encodeState st).getField "board" = some (encodeBoard st.board) := rfl
  have h2 : (encodeState st).getField "currentPlayer"
      = some (Json.str st.currentPlayer) := rfl
  unfold decodeState
  simp only [h1, h2, decodeBoard_encode]

/-- A file written by `saveGame` reads back as the saved state. -/
lemma loadGame_saveGame (st st0 : GameState) :
    loadGame (saveGame st).1 st0 = some (st, "Game loaded successfully!") := by
  show (decodeState (encodeState st)).map _ = _
  rw [decodeState_encode]
  rfl

/-! ### Helper lemmas about the board invariant -/

lemma getD_eq_getElem {α : Type} (l : List α) (n : Nat) (d : α)
    (h : n < l.length) : l.getD n d = l[n] := by
  unfold List.getD
  simp [List.getElem?_eq_getElem h]

lemma getD_eq_default {α : Type} (l : List α) (n : Nat) (d : α)
    (h : l.length ≤ n) : l.getD n d = d := by
  unfold List.getD
  simp [List.getElem?_eq_none h]

lemma boardWF_row_length {b : Board} (h : boardWF b) {r : Nat} (hr : r < 8) :
    (b.getD r []).length = 8 := by
  have hrb : r < b.length := h.1 ▸ hr
  rw [getD_eq_getElem b r [] hrb]
  exact (h.2 _ (List.getElem_mem hrb)).1

/-- Every cell read off a well-formed board is a valid tag (in-range
reads return a stored cell, out-of-range reads the default `"."`). -/
lemma validCell_getCell {b : Board} (h : boardWF b) (r c : Nat) :
    validCell (getCell b r c) = true := by
  unfold getCell
  by_cases hr : r < b.length
  · rw [getD_eq_getElem b r [] hr]
    have hrow := h.2 _ (List.getElem_mem hr)
    by_cases hc : c < b[r].length
    · rw [getD_eq_getElem _ c "." hc]
      exact hrow.2 _ (List.getElem_mem hc)
    · rw [getD_eq_default _ c "." (Nat.le_of_not_lt hc)]
      decide
  · rw [getD_eq_default b r [] (Nat.le_of_not_lt hr),
        getD_eq_default ([] : List Cell) c "." (Nat.zero_le c)]
    decide

/-- Writing a valid tag anywhere preserves the board invariant. -/
lemma boardWF_setCell {b : Board} (h : boardWF b) {v : Cell}
    (hv : validCell v = true) (r c : Nat) : boardWF (setCell b r c v) := by
  constructor
  · rw [setCell_length]; exact h.1
  · intro row2 hmem
    unfold setCell at hmem
    by_cases hr : r < b.length
    · rcases List.mem_or_eq_of_mem_set hmem with hm | hm
      · exact h.2 row2 hm
      · have hrow : b.getD r [] ∈ b := by
          rw [getD_eq_getElem b r [] hr]
          exact List.getElem_mem hr
        obtain ⟨hlen, hcells⟩ := h.2 _ hrow
        subst hm
        constructor
        · rw [List.length_set]; exact hlen
        · intro x hx
          rcases List.mem_or_eq_of_mem_set hx with hx2 | hx2
          · exact hcells x hx2
          · rw [hx2]; exact hv
    · rw [List.set_eq_of_length_le (Nat.le_of_not_lt hr)] at hmem
      exact h.2 row2 hmem

/-! ### Helper lemmas about the parser -/

/-- Every move string either parses (and matches the notation pattern)
or is rejected with the invalid-format message. -/
lemma parseMove_cases (s : String) :
    (specNotation s = true ∧ ∃ v, parseMove s = Except.ok v) ∨
    (specNotation s = false ∧ parseMove s
      = Except.error "Invalid move format. Use algebraic notation (e.g., e2e4).") := by
  unfold parseMove specNotation
  rcases hl : s.toList with _ | ⟨a, _ | ⟨b, _ | ⟨c, _ | ⟨d, _ | ⟨e, tl⟩⟩⟩⟩⟩ <;>
    first
      | (right; exact ⟨rfl, rfl⟩)
      | (by_cases hc : (('a' ≤ a && a ≤ 'h') && ('1' ≤ b && b ≤ '8')
            && ('a' ≤ c && c ≤ 'h') && ('1' ≤ d && d ≤ '8')) = true
         · left
           simp [hc]
         · right
           simp [hc])

/-! ### C1 through C10 -/

/-- C1: whenever reading or parsing the persistence file fails (file
absent or malformed content), `loadGame` run at the process-start state
returns the default starting GameState together with the informational
no-saved-game message, and raises no error (the failure branch is an
ordinary return). -/
theorem loadGame_failure_default (file : FileContent)
    (h : file = FileContent.absent ∨ file = FileContent.malformed) :
    loadGame file initialGameState
      = some (initialGameState, "No saved game found. Starting new game.") := by
  rcases h with h | h <;> rw [h] <;> rfl

theorem loadGame_failure_default_witness :
    loadGame FileContent.absent initialGameState
      = some (initialGameState, "No saved game found. Starting new game.") :=
  loadGame_failure_default FileContent.absent (Or.inl rfl)

/-- C2: for every board, side to move, and in-range move, the validator
accepts exactly when the source cell is nonempty, the source piece's
case-color equals the side to move, and the destination is either empty
or holds a piece of the other color; nothing else affects the result. -/
theorem isValidMove_spec (st : GameState) (f t : Nat × Nat)
    (hplayer : st.currentPlayer = "white" ∨ st.currentPlayer = "black")
    (hf1 : f.1 < 8) (hf2 : f.2 < 8) (ht1 : t.1 < 8) (ht2 : t.2 < 8) :
    isValidMove st f t = true ↔
      (getCell st.board f.1 f.2 ≠ "." ∧
       tagColor (getCell st.board f.1 f.2) = st.currentPlayer ∧
       (getCell st.board t.1 t.2 = "." ∨
        tagColor (getCell st.board t.1 t.2)
          ≠ tagColor (getCell st.board f.1 f.2))) := by
  unfold isValidMove tagColor isWhiteTag
  set p := getCell st.board f.1 f.2 with hp
  set d := getCell st.board t.1 t.2 with hd
  rcases hplayer with h | h <;> rw [h] <;>
    by_cases h1 : (p == ".") = true <;>
    by_cases h2 : (toUpperCase p == p) = true <;>
    by_cases h3 : (d == ".") = true <;>
    by_cases h4 : (toUpperCase d == d) = true <;>
    simp_all [beq_iff_eq, Bool.not_eq_true]

theorem isValidMove_spec_witness :
    isValidMove initialGameState (6, 4) (4, 4) = true :=
  (isValidMove_spec initialGameState (6, 4) (4, 4) (Or.inl rfl)
    (by decide) (by decide) (by decide) (by decide)).mpr (by decide)

/-- C3: applying a validator-approved in-range move to a well-formed
GameState puts the source piece on the destination cell, empties the
source cell, flips the side to move to the opposite color exactly once,
and leaves every other cell unchanged; `applyMove` is total, so
application has no failure mode. -/
theorem applyMove_spec (st : GameState) (f t : Nat × Nat)
    (hwf : boardWF st.board)
    (hf1 : f.1 < 8) (hf2 : f.2 < 8) (ht1 : t.1 < 8) (ht2 : t.2 < 8)
    (hvalid : isValidMove st f t = true) :
    getCell (applyMove st f t).board t.1 t.2 = getCell st.board f.1 f.2 ∧
    getCell (applyMove st f t).board f.1 f.2 = "." ∧
    (st.currentPlayer = "white" → (applyMove st f t).currentPlayer = "black") ∧
    (st.currentPlayer = "black" → (applyMove st f t).currentPlayer = "white") ∧
    ∀ r c : Nat, (r, c) ≠ f → (r, c) ≠ t →
      getCell (applyMove st f t).board r c = getCell st.board r c := by
  obtain ⟨f1, f2⟩ := f
  obtain ⟨t1, t2⟩ := t
  simp only at hf1 hf2 ht1 ht2
  have hne : (f1, f2) ≠ (t1, t2) := ne_of_isValidMove hvalid
  have hne2 : f1 ≠ t1 ∨ f2 ≠ t2 := pair_ne_iff.mp hne
  have hboard : (applyMove st (f1, f2) (t1, t2)).board
      = setCell (setCell st.board t1 t2 (getCell st.board f1 f2)) f1 f2 "." := rfl
  have hplayer2 : (applyMove st (f1, f2) (t1, t2)).currentPlayer
      = (if st.currentPlayer == "white" then "black" else "white") := rfl
  have hb1len : (setCell st.board t1 t2 (getCell st.board f1 f2)).length
      = st.board.length := setCell_length ..
  refine ⟨?_, ?_, ?_, ?_, ?_⟩
  · rw [hboard, getCell_setCell_ne _ f1 f2 _ t1 t2 hne2,
      getCell_setCell_self st.board t1 t2 _ (hwf.1 ▸ ht1)
        (by rw [boardWF_row_length hwf ht1]; exact ht2)]
  · rw [hboard]
    exact getCell_setCell_self _ f1 f2 "."
      (by rw [hb1len, hwf.1]; exact hf1)
      (by rw [getD_setCell_row, boardWF_row_length hwf hf1]; exact hf2)
  · intro h
    rw [hplayer2, h]
    decide
  · intro h
    rw [hplayer2, h]
    decide
  · intro r c hrf hrt
    have hrf2 : f1 ≠ r ∨ f2 ≠ c := (pair_ne_iff.mp hrf).imp Ne.symm Ne.symm
    have hrt2 : t1 ≠ r ∨ t2 ≠ c := (pair_ne_iff.mp hrt).imp Ne.symm Ne.symm
    rw [hboard, getCell_setCell_ne _ f1 f2 _ r c hrf2,
      getCell_setCell_ne _ t1 t2 _ r c hrt2]

theorem applyMove_spec_witness :
    getCell (applyMove initialGameState (6, 4) (4, 4)).board 4 4 = "P" ∧
    getCell (applyMove initialGameState (6, 4) (4, 4)).board 6 4 = "." ∧
    (applyMove initialGameState (6, 4) (4, 4)).currentPlayer = "black" ∧
    getCell (applyMove initialGameState (6, 4) (4, 4)).board 7 4 = "K" := by
  have h := applyMove_spec initialGameState (6, 4) (4, 4) (by decide)
    (by decide) (by decide) (by decide) (by decide) (by decide)
  refine ⟨?_, h.2.1, h.2.2.1 rfl, ?_⟩
  · rw [h.1]; rfl
  · rw [h.2.2.2.2 7 4 (by decide) (by decide)]; rfl

/-- C4: a move command that parses but is rejected by the validator
prints "Invalid move!" and leaves the whole GameState (board and side
to move) exactly as it was. -/
theorem makeMove_invalid (st : GameState) (input : String) (f t : Nat × Nat)
    (hparse : parseMove input = Except.ok (f, t))
    (hvalid : isValidMove st f t = false) :
    makeMove st input = (st, "Invalid move!") := by
  unfold makeMove
  rw [hparse]
  simp [hvalid]

theorem makeMove_invalid_witness :
    makeMove initialGameState "e7e5" = (initialGameState, "Invalid move!") :=
  makeMove_invalid initialGameState "e7e5" (1, 4) (3, 4) rfl (by decide)

/-- C5: saving any GameState and loading the resulting file yields a
GameState equal to the saved one — board grid cell-for-cell identical
and the same side-to-move value — whatever state was in memory. -/
theorem save_load_roundtrip (st st0 : GameState) :
    loadGame (saveGame st).1 st0 = some (st, "Game loaded successfully!") := by
  show (decodeState (encodeState st)).map _ = _
  rw [decodeState_encode]
  rfl

/-- C6: the move parser succeeds exactly on 4-character strings
matching file a–h, rank 1–8, file a–h, rank 1–8; a success returns
rows 8 − rank and columns file − 'a' (so "e2e4" gives (6,4)→(4,4) and
"a1h8" gives (7,0)→(0,7)); every other string (such as "i9i9" and
"e2e9") fails with the invalid-format error naming the example e2e4. -/
theorem parseMove_spec :
    (∀ s : String, (∃ v, parseMove s = Except.ok v) ↔ specNotation s = true) ∧
    (∀ (s : String) (c0 c1 c2 c3 : Char), s.toList = [c0, c1, c2, c3] →
       specNotation s = true →
       parseMove s = Except.ok
         ((8 - rankVal c1, fileVal c0), (8 - rankVal c3, fileVal c2))) ∧
    (∀ s : String, specNotation s = false →
       parseMove s
         = Except.error "Invalid move format. Use algebraic notation (e.g., e2e4).") ∧
    parseMove "e2e4" = Except.ok ((6, 4), (4, 4)) ∧
    parseMove "a1h8" = Except.ok ((7, 0), (0, 7)) ∧
    parseMove "i9i9"
      = Except.error "Invalid move format. Use algebraic notation (e.g., e2e4)." ∧
    parseMove "e2e9"
      = Except.error "Invalid move format. Use algebraic notation (e.g., e2e4)." := by
  refine ⟨?_, ?_, ?_, rfl, rfl, rfl, rfl⟩
  · intro s
    rcases parseMove_cases s with ⟨h1, h2⟩ | ⟨h1, h2⟩
    · exact iff_of_true h2 h1
    · refine iff_of_false ?_ (by simp [h1])
      rintro ⟨v, hv⟩
      rw [h2] at hv
      cases hv
  · intro s c0 c1 c2 c3 hl hspec
    unfold specNotation at hspec
    rw [hl] at hspec
    have hc : (('a' ≤ c0 && c0 ≤ 'h') && ('1' ≤ c1 && c1 ≤ '8')
        && ('a' ≤ c2 && c2 ≤ 'h') && ('1' ≤ c3 && c3 ≤ '8')) = true := hspec
    unfold parseMove
    rw [hl]
    dsimp only
    rw [if_pos hc]
    rfl
  · intro s h
    rcases parseMove_cases s with ⟨h1, _⟩ | ⟨_, h2⟩
    · rw [h] at h1
      cases h1
    · exact h2

theorem parseMove_spec_witness :
    parseMove "e2e4" = Except.ok
      ((8 - rankVal '2', fileVal 'e'), (8 - rankVal '4', fileVal 'e')) :=
  parseMove_spec.2.1 "e2e4" 'e' '2' 'e' '4' rfl (by decide)

/-- C7: every successfully parsed move has both coordinates with row
and column in [0,7], so on a well-formed 8x8 board every access the
validator and the applicator perform at those coordinates stays inside
the grid. -/
theorem parseMove_in_range (s : String) (f t : Nat × Nat)
    (h : parseMove s = Except.ok (f, t)) :
    (f.1 < 8 ∧ f.2 < 8 ∧ t.1 < 8 ∧ t.2 < 8) ∧
    ∀ b : Board, boardWF b →
      f.1 < b.length ∧ f.2 < (b.getD f.1 []).length ∧
      t.1 < b.length ∧ t.2 < (b.getD t.1 []).length := by
  have hbounds : f.1 < 8 ∧ f.2 < 8 ∧ t.1 < 8 ∧ t.2 < 8 := by
    unfold parseMove at h
    rcases hl : s.toList with _ | ⟨a, _ | ⟨b, _ | ⟨c, _ | ⟨d, _ | ⟨e, tl⟩⟩⟩⟩⟩ <;>
      rw [hl] at h <;>
      first
        | cases h
        | (by_cases hc : (('a' ≤ a && a ≤ 'h') && ('1' ≤ b && b ≤ '8')
              && ('a' ≤ c && c ≤ 'h') && ('1' ≤ d && d ≤ '8')) = true
           · simp only [hc, if_true] at h
             injection h with h2
             rw [Prod.ext_iff] at h2
             obtain ⟨hfe, hte⟩ := h2
             simp only [Bool.and_eq_true, decide_eq_true_eq] at hc
             obtain ⟨⟨⟨⟨ha1, ha2⟩, hb1, hb2⟩, hc1, hc2⟩, hd1, hd2⟩ := hc
             simp only [Char.le_def] at ha1 ha2 hb1 hb2 hc1 hc2 hd1 hd2
             have na1 : (97 : Nat) ≤ a.toNat := ha1
             have na2 : a.toNat ≤ 104 := ha2
             have nb1 : (49 : Nat) ≤ b.toNat := hb1
             have nb2 : b.toNat ≤ 56 := hb2
             have nc1 : (97 : Nat) ≤ c.toNat := hc1
             have nc2 : c.toNat ≤ 104 := hc2
             have nd1 : (49 : Nat) ≤ d.toNat := hd1
             have nd2 : d.toNat ≤ 56 := hd2
             have e48 : '0'.toNat = 48 := rfl
             have e97 : 'a'.toNat = 97 := rfl
             simp only at hfe hte
             subst hfe
             subst hte
             dsimp only
             simp only [e48, e97]
             refine ⟨by omega, by omega, by omega, by omega⟩
           · simp only [hc, if_false] at h
             cases h)
  refine ⟨hbounds, fun b hwf => ?_⟩
  obtain ⟨h1, h2, h3, h4⟩ := hbounds
  refine ⟨hwf.1 ▸ h1, ?_, hwf.1 ▸ h3, ?_⟩
  · rw [boardWF_row_length hwf h1]
    exact h2
  · rw [boardWF_row_length hwf h3]
    exact h4

theorem parseMove_in_range_witness :
    (4 : Nat) < (initialBoard.getD 6 []).length :=
  ((parseMove_in_range "e2e4" (6, 4) (4, 4) rfl).2 initialBoard (by decide)).2.1

/-- C8: the initial GameState is the canonical chess starting position:
white to move, rows 6–7 white (pawns plus the back rank ordered rook,
knight, bishop, queen, king, bishop, knight, rook), rows 0–1 the same
for black in lowercase, everything else empty. -/
theorem initial_position :
    initialGameState.currentPlayer = "white" ∧
    initialGameState.board =
      [ whiteBackRank.map toLowerCase,
        List.replicate 8 "p",
        List.replicate 8 ".", List.replicate 8 ".",
        List.replicate 8 ".", List.replicate 8 ".",
        List.replicate 8 "P",
        whiteBackRank ] ∧
    (∀ r, r < 2 → ∀ c, c < 8 → getCell initialGameState.board r c ≠ "." ∧
       tagColor (getCell initialGameState.board r c) = "black") ∧
    (∀ r, r < 8 → 6 ≤ r → ∀ c, c < 8 → getCell initialGameState.board r c ≠ "." ∧
       tagColor (getCell initialGameState.board r c) = "white") ∧
    (∀ r, r < 6 → 2 ≤ r → ∀ c, c < 8 → getCell initialGameState.board r c = ".") := by
  refine ⟨rfl, by decide, by decide, by decide, by decide⟩

theorem initial_position_witness :
    tagColor (getCell initialGameState.board 0 0) = "black" ∧
    tagColor (getCell initialGameState.board 7 4) = "white" ∧
    getCell initialGameState.board 3 3 = "." :=
  ⟨(initial_position.2.2.1 0 (by decide) 0 (by decide)).2,
   (initial_position.2.2.2.1 7 (by decide) (by decide) 4 (by decide)).2,
   initial_position.2.2.2.2 3 (by decide) (by decide) 3 (by decide)⟩

/-- C9: the 8x8-grid-of-valid-tags invariant holds at the initial state
and is preserved by every state-mutating operation: applying a
validated move, and loading either a file saved from a well-formed
state or a missing/corrupt file. -/
theorem board_invariant_preserved :
    boardWF initialGameState.board ∧
    (∀ (st : GameState) (f t : Nat × Nat), boardWF st.board →
       isValidMove st f t = true → boardWF (applyMove st f t).board) ∧
    (∀ (st0 st st2 : GameState) (msg : String) (file : FileContent),
       boardWF st0.board → boardWF st.board →
       (file = (saveGame st0).1 ∨ file = FileContent.absent
         ∨ file = FileContent.malformed) →
       loadGame file st = some (st2, msg) → boardWF st2.board) := by
  refine ⟨by decide, ?_, ?_⟩
  · intro st f t hwf _
    have hb : (applyMove st f t).board
        = setCell (setCell st.board t.1 t.2 (getCell st.board f.1 f.2))
            f.1 f.2 "." := rfl
    rw [hb]
    exact boardWF_setCell
      (boardWF_setCell hwf (validCell_getCell hwf f.1 f.2) t.1 t.2)
      (by decide) f.1 f.2
  · intro st0 st st2 msg file hwf0 hwf hfile hload
    rcases hfile with h | h | h <;> subst h
    · rw [loadGame_saveGame st0 st] at hload
      injection hload with h2
      have h5 : st0 = st2 := congrArg Prod.fst h2
      rw [← h5]
      exact hwf0
    · have h3 : some (st, "No saved game found. Starting new game.")
          = some (st2, msg) := hload
      injection h3 with h4
      have h5 : st = st2 := congrArg Prod.fst h4
      rw [← h5]
      exact hwf
    · have h3 : some (st, "No saved game found. Starting new game.")
          = some (st2, msg) := hload
      injection h3 with h4
      have h5 : st = st2 := congrArg Prod.fst h4
      rw [← h5]
      exact hwf

theorem board_invariant_preserved_witness :
    boardWF (applyMove initialGameState (6, 4) (4, 4)).board :=
  board_invariant_preserved.2.1 initialGameState (6, 4) (4, 4)
    (by decide) (by decide)

/-- C10: a move whose source and destination coincide is always
rejected by the validator — empty cells fail the empty-source rule and
occupied cells fail the own-color capture rule — so a self-move command
such as "e2e2" never mutates the GameState. -/
theorem no_self_move :
    (∀ (st : GameState) (c : Nat × Nat), isValidMove st c c = false) ∧
    (∀ st : GameState, makeMove st "e2e2" = (st, "Invalid move!")) := by
  refine ⟨isValidMove_self, fun st => ?_⟩
  unfold makeMove
  have hp : parseMove "e2e2" = Except.ok ((6, 4), (6, 4)) := rfl
  rw [hp]
  simp [isValidMove_self]
